import Mathlib

/-!
Verification development for the casino-rollup sequencer and prover.

The Rust sources are shallowly embedded: machine integers are modelled as
`Nat` (u64) and `Int` (i64) with explicit two's-complement wrapping where
Rust's `as` casts and release-mode arithmetic make overflow observable;
concurrent maps (`DashMap`, `HashMap`) are modelled as association lists;
fallible operations return `Except`.  Field elements of the BN254 scalar
field are modelled as `ZMod bn254r`.
-/

namespace CasinoRollup

/-! ## Two's-complement helpers for Rust `i64` / `u64` casts

`wrap64 x` is the unique representative of `x` modulo `2 ^ 64` lying in
`[-2 ^ 63, 2 ^ 63)`; it models Rust release-mode wrapping `i64` arithmetic
and the bit-reinterpreting casts `as i64` / `as u64`.
-/

def wrap64 (x : Int) : Int := (x + 2 ^ 63) % 2 ^ 64 - 2 ^ 63

/-- Rust `n as i64` for a `u64` value `n` (bit reinterpretation). -/
def i64ofU64 (n : Nat) : Int := wrap64 n

/-- Rust `x as u64` for an `i64` value `x` (bit reinterpretation). -/
def u64ofI64 (x : Int) : Nat := (x % 2 ^ 64).toNat

/-- Rust release-mode `i64` addition (wrapping). -/
def wrapAdd (a b : Int) : Int := wrap64 (a + b)

/-- Rust release-mode `i64` subtraction (wrapping). -/
def wrapSub (a b : Int) : Int := wrap64 (a - b)

/-- Rust release-mode `i64` negation (wrapping). -/
def wrapNeg (a : Int) : Int := wrap64 (-a)

/-- Rust `Iterator::sum::<i64>()` (release-mode: each partial sum wraps). -/
def wrapSum (l : List Int) : Int := l.foldl wrapAdd 0

theorem wrap64_congr {x y : Int} (h : (2 ^ 64 : Int) ∣ x - y) : wrap64 x = wrap64 y := by
  obtain ⟨k, hk⟩ := h
  have hx : x = y + 2 ^ 64 * k := by linarith
  unfold wrap64
  rw [hx]
  congr 1
  rw [show y + 2 ^ 64 * k + 2 ^ 63 = y + 2 ^ 63 + 2 ^ 64 * k by ring]
  exact Int.add_mul_emod_self_left (a := y + 2 ^ 63) (b := 2 ^ 64) (c := k)

theorem wrap64_lb (x : Int) : -2 ^ 63 ≤ wrap64 x := by
  have := Int.emod_nonneg (x + 2 ^ 63) (b := 2 ^ 64) (by norm_num)
  unfold wrap64
  omega

theorem wrap64_ub (x : Int) : wrap64 x < 2 ^ 63 := by
  have := Int.emod_lt_of_pos (x + 2 ^ 63) (b := (2 ^ 64 : Int)) (by norm_num)
  unfold wrap64
  omega

theorem wrap64_eq_self {x : Int} (h1 : -2 ^ 63 ≤ x) (h2 : x < 2 ^ 63) : wrap64 x = x := by
  unfold wrap64
  rw [Int.emod_eq_of_lt (by omega) (by omega)]
  omega

theorem wrap64_sub_dvd (x : Int) : (2 ^ 64 : Int) ∣ wrap64 x - x := by
  unfold wrap64
  have : (x + 2 ^ 63) % 2 ^ 64 = x + 2 ^ 63 - 2 ^ 64 * ((x + 2 ^ 63) / 2 ^ 64) :=
    Int.emod_def _ _
  exact ⟨-((x + 2 ^ 63) / 2 ^ 64), by omega⟩

theorem wrap64_idem (x : Int) : wrap64 (wrap64 x) = wrap64 x :=
  wrap64_eq_self (wrap64_lb x) (wrap64_ub x)

theorem wrapAdd_eq_self {a b : Int} (h1 : -2 ^ 63 ≤ a + b) (h2 : a + b < 2 ^ 63) :
    wrapAdd a b = a + b :=
  wrap64_eq_self h1 h2

theorem wrapSub_eq_self {a b : Int} (h1 : -2 ^ 63 ≤ a - b) (h2 : a - b < 2 ^ 63) :
    wrapSub a b = a - b :=
  wrap64_eq_self h1 h2

/-- The `as u64` / `as i64` round trip recovers the wrapped value. -/
theorem i64ofU64_u64ofI64 (x : Int) : i64ofU64 (u64ofI64 x) = wrap64 x := by
  unfold i64ofU64 u64ofI64
  have hnn : (0 : Int) ≤ x % 2 ^ 64 := Int.emod_nonneg x (by norm_num)
  rw [Int.toNat_of_nonneg hnn]
  apply wrap64_congr
  have : (x % 2 ^ 64) = x - 2 ^ 64 * (x / 2 ^ 64) := Int.emod_def _ _
  exact ⟨-(x / 2 ^ 64), by omega⟩

/-- A wrapped value plus its wrapped negation wraps to zero: the guard
`user_sum + house_delta != 0` with `house_delta = -user_sum` can never hold. -/
theorem wrapAdd_wrapNeg (s : Int) : wrapAdd s (wrapNeg s) = 0 := by
  unfold wrapAdd wrapNeg
  have h : wrap64 (s + wrap64 (-s)) = wrap64 (s + -s) := by
    apply wrap64_congr
    have := wrap64_sub_dvd (-s)
    have heq : s + wrap64 (-s) - (s + -s) = wrap64 (-s) - -s := by ring
    rw [heq]
    exact this
  rw [h]
  simp only [add_neg_cancel]
  exact wrap64_eq_self (by norm_num) (by norm_num)

/-! ## Association-list maps

`DashMap` / `HashMap` state is modelled as an association list; `ainsert`
replaces the value of an existing key in place (like `DashMap::insert` /
`HashMap::insert`) and appends a fresh key at the end, and `aupsert`
models the `entry(k).or_insert(d)` pattern followed by an in-place update.
-/

def alookup {κ ν : Type} [DecidableEq κ] : List (κ × ν) → κ → Option ν
  | [], _ => none
  | (k', v) :: rest, k => if k' = k then some v else alookup rest k

def ainsert {κ ν : Type} [DecidableEq κ] : List (κ × ν) → κ → ν → List (κ × ν)
  | [], k, v => [(k, v)]
  | (k', v') :: rest, k, v =>
      if k' = k then (k', v) :: rest else (k', v') :: ainsert rest k v

/-- Models `entry(k).or_insert(d)` followed by applying `f` to the stored value. -/
def aupsert {κ ν : Type} [DecidableEq κ] (f : ν → ν) (d : ν) :
    List (κ × ν) → κ → List (κ × ν)
  | [], k => [(k, f d)]
  | (k', v') :: rest, k =>
      if k' = k then (k', f v') :: rest else (k', v') :: aupsert f d rest k

theorem alookup_ainsert_self {κ ν : Type} [DecidableEq κ]
    (l : List (κ × ν)) (k : κ) (v : ν) : alookup (ainsert l k v) k = some v := by
  induction l with
  | nil => simp [ainsert, alookup]
  | cons hd tl ih =>
      obtain ⟨k', v'⟩ := hd
      by_cases h : k' = k <;> simp [ainsert, alookup, h, ih]

theorem alookup_ainsert_ne {κ ν : Type} [DecidableEq κ]
    (l : List (κ × ν)) (k k' : κ) (v : ν) (h : k ≠ k') :
    alookup (ainsert l k v) k' = alookup l k' := by
  induction l with
  | nil => simp [ainsert, alookup, h]
  | cons hd tl ih =>
      obtain ⟨k0, v0⟩ := hd
      by_cases h0 : k0 = k <;> simp [ainsert, alookup, h0, ih]
      · subst h0
        simp [h, alookup]

theorem ainsert_ainsert_same {κ ν : Type} [DecidableEq κ]
    (l : List (κ × ν)) (k : κ) (v : ν) :
    ainsert (ainsert l k v) k v = ainsert l k v := by
  induction l with
  | nil => simp [ainsert]
  | cons hd tl ih =>
      obtain ⟨k0, v0⟩ := hd
      by_cases h0 : k0 = k <;> simp [ainsert, h0, ih]

theorem alookup_aupsert_self {κ ν : Type} [DecidableEq κ]
    (f : ν → ν) (d : ν) (l : List (κ × ν)) (k : κ) :
    alookup (aupsert f d l k) k = some (f ((alookup l k).getD d)) := by
  induction l with
  | nil => simp [aupsert, alookup]
  | cons hd tl ih =>
      obtain ⟨k0, v0⟩ := hd
      by_cases h0 : k0 = k <;> simp [aupsert, alookup, h0, ih]

/-! ## Ledger store (`sequencer/src/database.rs`)

`Database` holds three concurrent maps; timestamps (`Utc::now()`) are
threaded in as an explicit `now : Nat` parameter.  The `i64` fields are
`Int` values and every arithmetic step of the mutators goes through the
wrapping helpers (`wrapAdd`, `wrapSub`), the release-mode `i64` semantics
used throughout this development.
-/

structure BetRec where
  id : String
  player_address : String
  amount : Int
  guess : Bool
  result : Bool
  won : Bool
  payout : Int
  timestamp : Nat
  deriving DecidableEq, Repr

structure PlayerBalance where
  player_address : String
  balance : Int
  total_deposited : Int
  total_withdrawn : Int
  total_wagered : Int
  total_won : Int
  created_at : Nat
  updated_at : Nat
  deriving DecidableEq, Repr

inductive DatabaseError where
  | PlayerNotFound (addr : String)
  | InsufficientBalance (required available : Int)
  | BetNotFound (id : String)
  deriving DecidableEq, Repr

structure Database where
  bets : List (String × BetRec)
  player_bets : List (String × List String)
  balances : List (String × PlayerBalance)
  deriving DecidableEq, Repr

def emptyDb : Database := ⟨[], [], []⟩

/-- Rust `Database::save_bet`: insert the bet record and push its id onto the
player's list. -/
def saveBet (db : Database) (bet : BetRec) : Database :=
  { db with
    bets := ainsert db.bets bet.id bet
    player_bets := aupsert (fun l => l ++ [bet.id]) [] db.player_bets bet.player_address }

/-- Rust `Database::create_player_balance`: builds a fresh row and inserts it
unconditionally (`DashMap::insert` replaces any existing row). -/
def createPlayerBalance (now : Nat) (db : Database) (addr : String) (initial : Int) :
    Except DatabaseError PlayerBalance × Database :=
  let bal : PlayerBalance :=
    { player_address := addr
      balance := initial
      total_deposited := initial
      total_withdrawn := 0
      total_wagered := 0
      total_won := 0
      created_at := now
      updated_at := now }
  (.ok bal, { db with balances := ainsert db.balances addr bal })

/-- Rust `Database::update_player_balance_after_bet`. -/
def updatePlayerBalanceAfterBet (now : Nat) (db : Database) (addr : String)
    (bet_amount payout : Int) : Except DatabaseError PlayerBalance × Database :=
  match alookup db.balances addr with
  | some cur =>
      if cur.balance < bet_amount then
        (.error (.InsufficientBalance bet_amount cur.balance), db)
      else
        let upd : PlayerBalance :=
          { player_address := addr
            balance := wrapAdd (wrapSub cur.balance bet_amount) payout
            total_deposited := cur.total_deposited
            total_withdrawn := cur.total_withdrawn
            total_wagered := wrapAdd cur.total_wagered bet_amount
            total_won := wrapAdd cur.total_won payout
            created_at := cur.created_at
            updated_at := now }
        (.ok upd, { db with balances := ainsert db.balances addr upd })
  | none => (.error (.PlayerNotFound addr), db)

/-- Rust `Database::deposit`: creates-or-updates. -/
def deposit (now : Nat) (db : Database) (addr : String) (amount : Int) :
    Except DatabaseError PlayerBalance × Database :=
  let upd : PlayerBalance :=
    match alookup db.balances addr with
    | some cur =>
        { player_address := addr
          balance := wrapAdd cur.balance amount
          total_deposited := wrapAdd cur.total_deposited amount
          total_withdrawn := cur.total_withdrawn
          total_wagered := cur.total_wagered
          total_won := cur.total_won
          created_at := cur.created_at
          updated_at := now }
    | none =>
        { player_address := addr
          balance := amount
          total_deposited := amount
          total_withdrawn := 0
          total_wagered := 0
          total_won := 0
          created_at := now
          updated_at := now }
  (.ok upd, { db with balances := ainsert db.balances addr upd })

/-- Rust `Database::withdraw`. -/
def withdraw (now : Nat) (db : Database) (addr : String) (amount : Int) :
    Except DatabaseError PlayerBalance × Database :=
  match alookup db.balances addr with
  | some cur =>
      if cur.balance < amount then
        (.error (.InsufficientBalance amount cur.balance), db)
      else
        let upd : PlayerBalance :=
          { player_address := addr
            balance := wrapSub cur.balance amount
            total_deposited := cur.total_deposited
            total_withdrawn := wrapAdd cur.total_withdrawn amount
            total_wagered := cur.total_wagered
            total_won := cur.total_won
            created_at := cur.created_at
            updated_at := now }
        (.ok upd, { db with balances := ainsert db.balances addr upd })
  | none => (.error (.PlayerNotFound addr), db)

/-! ### Operation sequences over the store (claim C4) -/

inductive DbOp where
  | create (now : Nat) (addr : String) (initial : Int)
  | dep (now : Nat) (addr : String) (amount : Int)
  | wd (now : Nat) (addr : String) (amount : Int)
  | updBet (now : Nat) (addr : String) (bet_amount payout : Int)
  deriving DecidableEq, Repr

def applyOp (db : Database) : DbOp → Database
  | .create now addr initial => (createPlayerBalance now db addr initial).2
  | .dep now addr amount => (deposit now db addr amount).2
  | .wd now addr amount => (withdraw now db addr amount).2
  | .updBet now addr amt payout => (updatePlayerBalanceAfterBet now db addr amt payout).2

def runOps (ops : List DbOp) (db : Database) : Database := ops.foldl applyOp db

/-- The spec's domains for the operations: deposits and withdrawals carry a
positive amount, an initial balance and bet amounts / payouts are
non-negative (`amount > 0`, §4.1 / §3 of the spec). -/
def opValid : DbOp → Bool
  | .create _ _ initial => 0 ≤ initial
  | .dep _ _ amount => 0 < amount
  | .wd _ _ amount => 0 < amount
  | .updBet _ _ amt payout => 0 ≤ amt ∧ 0 ≤ payout

/-- Inflow of an operation: the amount it can add to a player's
`total_deposited` or `total_won` (withdrawals add nothing). -/
def opInflow : DbOp → Int
  | .create _ _ initial => initial
  | .dep _ _ amount => amount
  | .wd _ _ _ => 0
  | .updBet _ _ _ payout => payout

def inflow (ops : List DbOp) : Int := (ops.map opInflow).sum

/-- The strengthened per-record invariant carried through the induction:
the exact accounting identity, non-negativity of every field, and the
bound `total_deposited + total_won ≤ J` by the inflow consumed so far,
which keeps every `i64` step inside `[-2 ^ 63, 2 ^ 63)` so the wrapping
operations behave like exact integer arithmetic. -/
def recInv (J : Int) (b : PlayerBalance) : Prop :=
  b.balance = b.total_deposited - b.total_withdrawn - b.total_wagered + b.total_won ∧
    0 ≤ b.balance ∧ 0 ≤ b.total_deposited ∧ 0 ≤ b.total_withdrawn ∧
    0 ≤ b.total_wagered ∧ 0 ≤ b.total_won ∧
    b.total_deposited + b.total_won ≤ J

def recsInv (J : Int) (l : List (String × PlayerBalance)) : Prop :=
  ∀ addr b, alookup l addr = some b → recInv J b

def strongInv (J : Int) (db : Database) : Prop := recsInv J db.balances

theorem recInv_mk {J bal dep wd wag won : Int} {a : String} {ca ua : Nat}
    (h1 : bal = dep - wd - wag + won) (h2 : 0 ≤ bal) (h3 : 0 ≤ dep)
    (h4 : 0 ≤ wd) (h5 : 0 ≤ wag) (h6 : 0 ≤ won) (h7 : dep + won ≤ J) :
    recInv J ⟨a, bal, dep, wd, wag, won, ca, ua⟩ :=
  ⟨h1, h2, h3, h4, h5, h6, h7⟩

theorem recInv_mono {J J2 : Int} {b : PlayerBalance} (h : recInv J b)
    (hJ : J ≤ J2) : recInv J2 b := by
  obtain ⟨h1, h2, h3, h4, h5, h6, h7⟩ := h
  exact ⟨h1, h2, h3, h4, h5, h6, by omega⟩

theorem recsInv_mono {J J2 : Int} {l : List (String × PlayerBalance)}
    (h : recsInv J l) (hJ : J ≤ J2) : recsInv J2 l :=
  fun addr b hb => recInv_mono (h addr b hb) hJ

theorem recsInv_ainsert {J : Int} {l : List (String × PlayerBalance)}
    {addr : String} {b : PlayerBalance} (hl : recsInv J l) (hb : recInv J b) :
    recsInv J (ainsert l addr b) := by
  intro a c h
  by_cases ha : addr = a
  · subst ha
    rw [alookup_ainsert_self] at h
    cases h
    exact hb
  · rw [alookup_ainsert_ne _ _ _ _ ha] at h
    exact hl a c h

theorem opInflow_nonneg {op : DbOp} (hop : opValid op = true) : 0 ≤ opInflow op := by
  cases op with
  | create now addr initial =>
      simp only [opValid, decide_eq_true_eq] at hop
      simpa [opInflow] using hop
  | dep now addr amount =>
      simp only [opValid, decide_eq_true_eq] at hop
      simp only [opInflow]
      omega
  | wd now addr amount => simp [opInflow]
  | updBet now addr amt payout =>
      simp only [opValid, Bool.decide_and, Bool.and_eq_true, decide_eq_true_eq] at hop
      simpa [opInflow] using hop.2

theorem inflow_nonneg {ops : List DbOp} (h : ops.all opValid = true) :
    0 ≤ inflow ops := by
  induction ops with
  | nil => simp [inflow]
  | cons op rest ih =>
      simp only [List.all_cons, Bool.and_eq_true] at h
      have h1 := opInflow_nonneg h.1
      have h2 := ih h.2
      simp only [inflow, List.map_cons, List.sum_cons] at h2 ⊢
      omega

theorem strongInv_applyOp {db : Database} {J : Int} {op : DbOp}
    (hdb : strongInv J db) (hop : opValid op = true) (hJ : 0 ≤ J)
    (hbound : J + opInflow op < 2 ^ 63) :
    strongInv (J + opInflow op) (applyOp db op) := by
  cases op with
  | create now addr initial =>
      simp only [opValid, decide_eq_true_eq] at hop
      show recsInv _ _
      simp only [applyOp, createPlayerBalance, opInflow] at hbound ⊢
      refine recsInv_ainsert (recsInv_mono hdb (by omega)) ?_
      exact recInv_mk (by omega) (by omega) (by omega) (by omega) (by omega)
        (by omega) (by omega)
  | dep now addr amount =>
      simp only [opValid, decide_eq_true_eq] at hop
      show recsInv _ _
      simp only [applyOp, deposit, opInflow] at hbound ⊢
      cases hcur : alookup db.balances addr with
      | some cur =>
          obtain ⟨he, hb0, hd0, hw0, hg0, hn0, hsum⟩ := hdb addr cur hcur
          simp only [hcur]
          refine recsInv_ainsert (recsInv_mono hdb (by omega)) ?_
          have e1 : wrapAdd cur.balance amount = cur.balance + amount :=
            wrapAdd_eq_self (by omega) (by omega)
          have e2 : wrapAdd cur.total_deposited amount = cur.total_deposited + amount :=
            wrapAdd_eq_self (by omega) (by omega)
          exact recInv_mk (by omega) (by omega) (by omega) (by omega) (by omega)
            (by omega) (by omega)
      | none =>
          simp only [hcur]
          refine recsInv_ainsert (recsInv_mono hdb (by omega)) ?_
          exact recInv_mk (by omega) (by omega) (by omega) (by omega) (by omega)
            (by omega) (by omega)
  | wd now addr amount =>
      simp only [opValid, decide_eq_true_eq] at hop
      show recsInv _ _
      simp only [applyOp, withdraw, opInflow] at hbound ⊢
      cases hcur : alookup db.balances addr with
      | some cur =>
          obtain ⟨he, hb0, hd0, hw0, hg0, hn0, hsum⟩ := hdb addr cur hcur
          simp only [hcur]
          by_cases hlt : cur.balance < amount
          · simpa [hlt] using recsInv_mono hdb (by omega)
          · simp only [hlt, if_false]
            refine recsInv_ainsert (recsInv_mono hdb (by omega)) ?_
            have e1 : wrapSub cur.balance amount = cur.balance - amount :=
              wrapSub_eq_self (by omega) (by omega)
            have e2 : wrapAdd cur.total_withdrawn amount = cur.total_withdrawn + amount :=
              wrapAdd_eq_self (by omega) (by omega)
            exact recInv_mk (by omega) (by omega) (by omega) (by omega) (by omega)
              (by omega) (by omega)
      | none => simpa [hcur] using recsInv_mono hdb (by omega)
  | updBet now addr amt payout =>
      simp only [opValid, Bool.decide_and, Bool.and_eq_true, decide_eq_true_eq] at hop
      obtain ⟨ha0, hp0⟩ := hop
      show recsInv _ _
      simp only [applyOp, updatePlayerBalanceAfterBet, opInflow] at hbound ⊢
      cases hcur : alookup db.balances addr with
      | some cur =>
          obtain ⟨he, hb0, hd0, hw0, hg0, hn0, hsum⟩ := hdb addr cur hcur
          simp only [hcur]
          by_cases hlt : cur.balance < amt
          · simpa [hlt] using recsInv_mono hdb (by omega)
          · simp only [hlt, if_false]
            refine recsInv_ainsert (recsInv_mono hdb (by omega)) ?_
            have e1 : wrapSub cur.balance amt = cur.balance - amt :=
              wrapSub_eq_self (by omega) (by omega)
            have e2 : wrapAdd (wrapSub cur.balance amt) payout =
                cur.balance - amt + payout := by
              rw [e1]
              exact wrapAdd_eq_self (by omega) (by omega)
            have e3 : wrapAdd cur.total_wagered amt = cur.total_wagered + amt :=
              wrapAdd_eq_self (by omega) (by omega)
            have e4 : wrapAdd cur.total_won payout = cur.total_won + payout :=
              wrapAdd_eq_self (by omega) (by omega)
            exact recInv_mk (by omega) (by omega) (by omega) (by omega) (by omega)
              (by omega) (by omega)
      | none => simpa [hcur] using recsInv_mono hdb (by omega)

theorem runOps_cons (op : DbOp) (rest : List DbOp) (db : Database) :
    runOps (op :: rest) db = runOps rest (applyOp db op) := rfl

theorem strongInv_runOps {ops : List DbOp} {db : Database} {J : Int}
    (hdb : strongInv J db) (hops : ops.all opValid = true) (hJ : 0 ≤ J)
    (hbound : J + inflow ops < 2 ^ 63) :
    strongInv (J + inflow ops) (runOps ops db) := by
  induction ops generalizing db J with
  | nil => simpa [inflow, runOps] using hdb
  | cons op rest ih =>
      simp only [List.all_cons, Bool.and_eq_true] at hops
      have hi0 := opInflow_nonneg hops.1
      have hr0 := inflow_nonneg hops.2
      have hic : inflow (op :: rest) = opInflow op + inflow rest := by
        simp [inflow]
      rw [hic] at hbound ⊢
      rw [← add_assoc, runOps_cons]
      exact ih (strongInv_applyOp hdb hops.1 hJ (by omega)) hops.2 (by omega)
        (by omega)

/-! ### Claims C4, C5, C6 -/

/-- C4 amended: for every player, after any sequence of
`create_player_balance`, `deposit`, `withdraw` and
`update_player_balance_after_bet` operations with the spec's parameter
domains (positive deposit/withdraw amounts, non-negative initial
balances, bet amounts and payouts; failing operations leave the store
unchanged) whose total inflow — initial balances, deposit amounts and
payouts — stays below `2 ^ 63`, i.e. in the absence of `i64` overflow,
every stored record satisfies
`balance = total_deposited - total_withdrawn - total_wagered + total_won`
and `balance ≥ 0`. -/
theorem c4_balance_invariant (ops : List DbOp) (h1 : ops.all opValid = true)
    (h2 : inflow ops < 2 ^ 63) :
    ∀ addr b, alookup (runOps ops emptyDb).balances addr = some b →
      b.balance = b.total_deposited - b.total_withdrawn - b.total_wagered + b.total_won ∧
        0 ≤ b.balance := by
  have h0 : strongInv 0 emptyDb := by
    intro addr b hb
    simp [emptyDb, alookup] at hb
  have hrun := strongInv_runOps h0 h1 le_rfl (by omega)
  intro addr b hb
  obtain ⟨he, hb0, _, _, _, _, _⟩ := hrun addr b hb
  exact ⟨he, hb0⟩

def opsEx : List DbOp :=
  [.dep 0 "alice" 500, .updBet 1 "alice" 200 400, .wd 2 "alice" 100,
   .create 3 "bob" 50, .updBet 4 "alice" 1000 0]

theorem c4_balance_invariant_witness :
    (opsEx.all opValid = true) ∧ (inflow opsEx < 2 ^ 63) ∧
      (∀ addr b, alookup (runOps opsEx emptyDb).balances addr = some b →
        b.balance = b.total_deposited - b.total_withdrawn - b.total_wagered + b.total_won ∧
          0 ≤ b.balance) :=
  ⟨by decide, by decide, c4_balance_invariant opsEx (by decide) (by decide)⟩

def ops4 : List DbOp := [.dep 0 "a" (2 ^ 62), .dep 1 "a" (2 ^ 62)]

/-- C4 counterexample: two valid deposits of `2 ^ 62` wrap the stored
`i64` balance (and `total_deposited`) around to `-2 ^ 63`, so after a
sequence of valid operations the stored record violates `balance ≥ 0`. -/
theorem c4_overflow_counterexample :
    ops4.all opValid = true ∧
      ((alookup (runOps ops4 emptyDb).balances "a").map (fun b => b.balance)) =
        some (-2 ^ 63) ∧
      ¬ (0 ≤ (-2 ^ 63 : Int)) := by
  refine ⟨by decide, by decide, by decide⟩

def betEx : BetRec :=
  { id := "bet1", player_address := "alice", amount := 1000, guess := true,
    result := false, won := false, payout := 0, timestamp := 0 }

/-- C5 counterexample: saving the same bet twice does not leave the store in
the same state as saving it once — the bet id is appended to the player's
ordered list a second time. -/
theorem c5_save_bet_not_idempotent :
    saveBet (saveBet emptyDb betEx) betEx ≠ saveBet emptyDb betEx := by decide

/-- C5 amended: a second `save_bet` with the same bet leaves the bets map
unchanged and never touches balances, but appends the bet id to the
player's ordered list again, so the id ends up duplicated in that list. -/
theorem c5_save_bet_amended (db : Database) (bet : BetRec) :
    (saveBet (saveBet db bet) bet).bets = (saveBet db bet).bets ∧
      (saveBet (saveBet db bet) bet).balances = db.balances ∧
      (saveBet db bet).balances = db.balances ∧
      alookup (saveBet (saveBet db bet) bet).player_bets bet.player_address =
        some (((alookup db.player_bets bet.player_address).getD []) ++
          [bet.id, bet.id]) := by
  refine ⟨ainsert_ainsert_same _ _ _, rfl, rfl, ?_⟩
  show alookup (aupsert (fun l => l ++ [bet.id]) []
      (aupsert (fun l => l ++ [bet.id]) [] db.player_bets bet.player_address)
      bet.player_address) bet.player_address = _
  rw [alookup_aupsert_self, alookup_aupsert_self]
  simp

def isOkE {ε α : Type} : Except ε α → Bool
  | .ok _ => true
  | .error _ => false

/-- C6 counterexample: after a row for `"alice"` exists, a second
`create_player_balance` still succeeds and replaces the row (balance 5
becomes balance 7), refuting "creation fails if the row already exists,
leaving the existing row unchanged". -/
theorem c6_create_counterexample :
    isOkE (createPlayerBalance 1 (createPlayerBalance 0 emptyDb "alice" 5).2
        "alice" 7).1 = true ∧
      alookup (createPlayerBalance 1 (createPlayerBalance 0 emptyDb "alice" 5).2
          "alice" 7).2.balances "alice" ≠
        alookup (createPlayerBalance 0 emptyDb "alice" 5).2.balances "alice" := by
  decide

/-- C6 amended: `create_player_balance(address, initial)` always succeeds,
returning a fresh row with `balance = total_deposited = initial` and zero
totals, and unconditionally overwrites any existing row for the address. -/
theorem c6_create_always_overwrites (now : Nat) (db : Database) (addr : String)
    (initial : Int) :
    (createPlayerBalance now db addr initial).1 = Except.ok
      { player_address := addr, balance := initial, total_deposited := initial,
        total_withdrawn := 0, total_wagered := 0, total_won := 0,
        created_at := now, updated_at := now } ∧
      alookup (createPlayerBalance now db addr initial).2.balances addr = some
        { player_address := addr, balance := initial, total_deposited := initial,
          total_withdrawn := 0, total_wagered := 0, total_won := 0,
          created_at := now, updated_at := now } :=
  ⟨rfl, alookup_ainsert_self _ _ _⟩

/-! ## Accounting circuit data (`prover/src/circuits/accounting.rs`)

The BN254 scalar field is `ZMod bn254r`.
-/

def bn254r : Nat :=
  21888242871839275222246405745257275088548364400416034343698204186575808495617

abbrev Fr := ZMod bn254r

structure CircuitBet where
  user_id : Nat
  amount : Nat
  guess : Bool
  outcome : Bool
  deriving DecidableEq, Repr

def CircuitBet.won (b : CircuitBet) : Bool := b.guess == b.outcome

/-- Rust `Bet::delta`: `+amount` on a win, `-(amount as i64)` on a loss. -/
def CircuitBet.delta (b : CircuitBet) : Int :=
  if b.won then i64ofU64 b.amount else wrapNeg (i64ofU64 b.amount)

structure AccountingCircuit where
  bets : List CircuitBet
  batch_id : Fr
  initial_balances : List Fr
  final_balances : List Fr
  house_initial : Fr
  house_final : Fr
  deriving DecidableEq

/-- Rust `AccountingCircuit::new`: u64 balances are mapped into the field. -/
def AccountingCircuit.new (bets : List CircuitBet) (batch_id : Nat)
    (initial final : List Nat) (house_initial house_final : Nat) :
    AccountingCircuit :=
  { bets := bets
    batch_id := (batch_id : Fr)
    initial_balances := initial.map (fun b => (b : Fr))
    final_balances := final.map (fun b => (b : Fr))
    house_initial := (house_initial : Fr)
    house_final := (house_final : Fr) }

/-! ## Witness generator (`prover/src/witness_generator.rs`) -/

inductive WitnessError where
  | InsufficientBalance (user_id : Nat) (balance bet_amount : Nat)
  | NegativeBalance (user_id : Nat) (balance : Int)
  | ConservationViolation (user_sum house_delta : Int)
  | EmptyBatch
  | BatchTooLarge (size max_size : Nat)
  | UnknownUser (user_id : Nat)
  deriving DecidableEq, Repr

structure SettlementBet where
  user_id : Nat
  amount : Nat
  guess : Bool
  outcome : Bool
  bet_id : String
  deriving DecidableEq, Repr

def SettlementBet.won (b : SettlementBet) : Bool := b.guess == b.outcome

def SettlementBet.delta (b : SettlementBet) : Int :=
  if b.won then i64ofU64 b.amount else wrapNeg (i64ofU64 b.amount)

def SettlementBet.toCircuitBet (b : SettlementBet) : CircuitBet :=
  ⟨b.user_id, b.amount, b.guess, b.outcome⟩

structure SettlementBatch where
  batch_id : Nat
  bets : List SettlementBet
  initial_balances : List (Nat × Nat)
  house_initial_balance : Nat
  timestamp : Nat
  deriving DecidableEq, Repr

structure WitnessGenerator where
  max_batch_size : Nat
  max_users : Nat
  deriving DecidableEq, Repr

/-- The per-bet loop of `WitnessGenerator::validate_batch`. -/
def checkBets (init : List (Nat × Nat)) : List SettlementBet → Except WitnessError Unit
  | [] => .ok ()
  | b :: rest =>
      match alookup init b.user_id with
      | none => .error (.UnknownUser b.user_id)
      | some bal =>
          if bal < b.amount then .error (.InsufficientBalance b.user_id bal b.amount)
          else checkBets init rest

def validateBatch (g : WitnessGenerator) (batch : SettlementBatch) :
    Except WitnessError Unit :=
  if batch.bets.isEmpty then .error .EmptyBatch
  else if batch.bets.length > g.max_batch_size then
    .error (.BatchTooLarge batch.bets.length g.max_batch_size)
  else checkBets batch.initial_balances batch.bets

/-- The `user_deltas` accumulation: `entry(user_id).or_insert(0) += bet.delta()`. -/
def userDeltas (bets : List SettlementBet) : List (Nat × Int) :=
  bets.foldl (fun m b => aupsert (fun v => wrapAdd v b.delta) 0 m b.user_id) []

/-- The `final_balances` loop: `(initial as i64 + delta) as u64` with the
source's guard `final_balance as i64 != initial_balance as i64 + delta`. -/
def computeFinalBalances (deltas : List (Nat × Int)) :
    List (Nat × Nat) → Except WitnessError (List (Nat × Nat))
  | [] => .ok []
  | (uid, ib) :: rest =>
      let d := (alookup deltas uid).getD 0
      let fb := u64ofI64 (wrapAdd (i64ofU64 ib) d)
      if i64ofU64 fb ≠ wrapAdd (i64ofU64 ib) d then
        .error (.NegativeBalance uid (wrapAdd (i64ofU64 ib) d))
      else
        match computeFinalBalances deltas rest with
        | .error e => .error e
        | .ok rest' => .ok ((uid, fb) :: rest')

/-- Rust `WitnessGenerator::generate_witness`. -/
def generateWitness (g : WitnessGenerator) (batch : SettlementBatch) :
    Except WitnessError AccountingCircuit :=
  match validateBatch g batch with
  | .error e => .error e
  | .ok _ =>
      let accountingBets :=
        batch.bets.map SettlementBet.toCircuitBet ++
          List.replicate (g.max_batch_size - batch.bets.length) ⟨0, 0, true, false⟩
      let deltas := userDeltas batch.bets
      match computeFinalBalances deltas batch.initial_balances with
      | .error e => .error e
      | .ok finals =>
          let house_delta := wrapNeg (wrapSum (deltas.map (·.2)))
          let house_final :=
            u64ofI64 (wrapAdd (i64ofU64 batch.house_initial_balance) house_delta)
          let user_sum := wrapSum (deltas.map (·.2))
          if wrapAdd user_sum house_delta ≠ 0 then
            .error (.ConservationViolation user_sum house_delta)
          else
            let max_user_id := (batch.initial_balances.map (·.1)).foldl max 0
            if g.max_users ≤ max_user_id then
              .error (.BatchTooLarge (max_user_id + 1) g.max_users)
            else
              let initArr := (List.range g.max_users).map (fun u =>
                match alookup batch.initial_balances u with
                | some ib => ib
                | none => 0)
              let finalArr := (List.range g.max_users).map (fun u =>
                match alookup batch.initial_balances u with
                | some ib => (alookup finals u).getD ib
                | none => 0)
              .ok (AccountingCircuit.new accountingBets batch.batch_id initArr
                finalArr batch.house_initial_balance house_final)

def isCVErr : WitnessError → Bool
  | .ConservationViolation _ _ => true
  | _ => false

def isConsViolation {α : Type} : Except WitnessError α → Bool
  | .error e => isCVErr e
  | .ok _ => false

theorem checkBets_not_cv {init : List (Nat × Nat)} {bets : List SettlementBet}
    {e : WitnessError} (h : checkBets init bets = .error e) : isCVErr e = false := by
  induction bets with
  | nil => simp [checkBets] at h
  | cons b rest ih =>
      rw [checkBets] at h
      cases hl : alookup init b.user_id with
      | none =>
          rw [hl] at h
          cases h
          rfl
      | some bal =>
          rw [hl] at h
          simp only [] at h
          by_cases hb : bal < b.amount
          · rw [if_pos hb] at h
            cases h
            rfl
          · rw [if_neg hb] at h
            exact ih h

theorem validateBatch_not_cv {g : WitnessGenerator} {batch : SettlementBatch}
    {e : WitnessError} (h : validateBatch g batch = .error e) : isCVErr e = false := by
  unfold validateBatch at h
  by_cases h1 : batch.bets.isEmpty
  · rw [if_pos h1] at h
    cases h
    rfl
  · rw [if_neg h1] at h
    by_cases h2 : batch.bets.length > g.max_batch_size
    · rw [if_pos h2] at h
      cases h
      rfl
    · rw [if_neg h2] at h
      exact checkBets_not_cv h

theorem computeFinalBalances_not_cv {deltas : List (Nat × Int)}
    {init : List (Nat × Nat)} {e : WitnessError}
    (h : computeFinalBalances deltas init = .error e) : isCVErr e = false := by
  induction init with
  | nil => simp [computeFinalBalances] at h
  | cons hd rest ih =>
      obtain ⟨uid, ib⟩ := hd
      rw [computeFinalBalances] at h
      split at h
      · cases h
        rfl
      · cases hc : computeFinalBalances deltas rest with
        | error e2 =>
            rw [hc] at h
            simp only [Except.error.injEq] at h
            subst h
            exact ih hc
        | ok rest2 =>
            rw [hc] at h
            simp at h

/-- C10: `generate_witness` can never return `ConservationViolation`: the
house delta is the (wrapping) negation of the user-delta sum, and a value
plus its wrapping negation always wraps to zero, so the guard is
unsatisfiable. -/
theorem c10_no_conservation_violation (g : WitnessGenerator)
    (batch : SettlementBatch) :
    isConsViolation (generateWitness g batch) = false := by
  cases hw : generateWitness g batch with
  | ok c => rfl
  | error e =>
      show isCVErr e = false
      unfold generateWitness at hw
      cases hv : validateBatch g batch with
      | error e2 =>
          rw [hv] at hw
          simp only [Except.error.injEq] at hw
          subst hw
          exact validateBatch_not_cv hv
      | ok u =>
          rw [hv] at hw
          simp only [] at hw
          cases hf : computeFinalBalances (userDeltas batch.bets)
              batch.initial_balances with
          | error e2 =>
              rw [hf] at hw
              simp only [Except.error.injEq] at hw
              subst hw
              exact computeFinalBalances_not_cv hf
          | ok finals =>
              rw [hf] at hw
              simp only [] at hw
              split at hw
              · rename_i hcond
                exact absurd (wrapAdd_wrapNeg _) hcond
              · split at hw
                · cases hw
                  rfl
                · simp at hw

/-! ### Claim C7: the no-negative-balance guard is a cast round trip

`(initial as i64 + delta) as u64` followed by the check
`final_balance as i64 != initial_balance as i64 + delta` compares a value
with its own `i64 → u64 → i64` round trip, which is the identity, so the
`NegativeBalance` branch is unreachable and batches whose summed losses
exceed the user's initial balance are accepted with a wrapped final
balance.
-/

def gen7 : WitnessGenerator := ⟨10, 5⟩

/-- User 0 starts with 1000 and places two losing bets of 600 each: every
single bet is within the initial balance (so `validate_batch` passes), but
the summed delta is −1200. -/
def batch7 : SettlementBatch :=
  { batch_id := 1
    bets := [⟨0, 600, true, false, "b1"⟩, ⟨0, 600, true, false, "b2"⟩]
    initial_balances := [(0, 1000)]
    house_initial_balance := 10000
    timestamp := 0 }

/-- C7 (failing run): `generate_witness` returns `Ok` on `batch7` even
though user 0's initial balance 1000 is smaller than the absolute summed
delta 1200; the computed final balance wraps around to
`2^64 - 200 = 18446744073709551416`. -/
theorem c7_generate_witness_wraps :
    ((generateWitness gen7 batch7).map (fun c => c.final_balances)) =
      Except.ok [((18446744073709551416 : Nat) : Fr), ((0 : Nat) : Fr),
        ((0 : Nat) : Fr), ((0 : Nat) : Fr), ((0 : Nat) : Fr)] ∧
      (alookup (userDeltas batch7.bets) 0).getD 0 = -1200 ∧
      (1000 : Nat) < Int.natAbs (-1200 : Int) := by
  refine ⟨?_, by decide, by decide⟩
  rfl

/-! ## R1CS constraints of `AccountingCircuit::generate_constraints`

Variables are indexed by `CVar`; a linear combination is a constant
coefficient on `Variable::One` plus coefficients on variables, exactly as
built by the `ark_relations::lc!()` expressions in the source.  The
enforced constraints are: booleanity of each guess and outcome,
`guess_i * outcome_i = prod_i`, and
`(1 - guess_i - outcome_i + 2*prod_i) * 1 = won_i`.  The delta witness
variables are created but never constrained, and no constraint mentions
the balance inputs (the source's "Constraint 3: Conservation" block is an
unimplemented TODO).
-/

inductive CVar where
  | batchId
  | initBal (i : Nat)
  | finBal (i : Nat)
  | houseInit
  | houseFinal
  | betUser (i : Nat)
  | betAmount (i : Nat)
  | betGuess (i : Nat)
  | betOutcome (i : Nat)
  | wonVar (i : Nat)
  | prodVar (i : Nat)
  | deltaVar (i : Nat)
  deriving DecidableEq, Repr

structure LinComb where
  const : Fr
  terms : List (CVar × Fr)

def LinComb.eval (a : CVar → Fr) (l : LinComb) : Fr :=
  l.const + (l.terms.map (fun t => t.2 * a t.1)).sum

structure R1C where
  A : LinComb
  B : LinComb
  C : LinComb

def R1C.holds (a : CVar → Fr) (r : R1C) : Prop :=
  LinComb.eval a r.A * LinComb.eval a r.B = LinComb.eval a r.C

instance (a : CVar → Fr) (r : R1C) : Decidable (R1C.holds a r) := by
  unfold R1C.holds
  infer_instance

/-- Booleanity constraint `v * (v - 1) = 0`. -/
def boolConstraint (v : CVar) : R1C :=
  ⟨⟨0, [(v, 1)]⟩, ⟨-1, [(v, 1)]⟩, ⟨0, []⟩⟩

def circuitConstraints (c : AccountingCircuit) : List R1C :=
  ((List.range c.bets.length).map (fun i => boolConstraint (.betGuess i))) ++
    ((List.range c.bets.length).map (fun i => boolConstraint (.betOutcome i))) ++
    ((List.range c.bets.length).flatMap (fun i =>
      [⟨⟨0, [(.betGuess i, 1)]⟩, ⟨0, [(.betOutcome i, 1)]⟩, ⟨0, [(.prodVar i, 1)]⟩⟩,
       ⟨⟨1, [(.betGuess i, -1), (.betOutcome i, -1), (.prodVar i, 2)]⟩,
        ⟨1, []⟩, ⟨0, [(.wonVar i, 1)]⟩⟩]))

/-- The public input variables carry the instance's public values. -/
def publicsFixed (c : AccountingCircuit) (a : CVar → Fr) : Prop :=
  a .batchId = c.batch_id ∧
    (∀ i, a (.initBal i) = c.initial_balances.getD i 0) ∧
    (∀ i, a (.finBal i) = c.final_balances.getD i 0) ∧
    a .houseInit = c.house_initial ∧
    a .houseFinal = c.house_final

/-- R1CS satisfiability of the generated system for a given instantiation:
the public inputs are fixed and some witness assignment satisfies every
enforced constraint. -/
def constraintsSatisfiable (c : AccountingCircuit) : Prop :=
  ∃ a, publicsFixed c a ∧ ∀ r ∈ circuitConstraints c, R1C.holds a r

def boolToFr (b : Bool) : Fr := if b then 1 else 0

def defaultCircuitBet : CircuitBet := ⟨0, 0, true, false⟩

/-- The witness values that the Rust synthesizer itself supplies via the
`new_witness_variable` closures. -/
def canonicalAssignment (c : AccountingCircuit) : CVar → Fr
  | .batchId => c.batch_id
  | .initBal i => c.initial_balances.getD i 0
  | .finBal i => c.final_balances.getD i 0
  | .houseInit => c.house_initial
  | .houseFinal => c.house_final
  | .betUser i => (((c.bets.getD i defaultCircuitBet).user_id : Nat) : Fr)
  | .betAmount i => (((c.bets.getD i defaultCircuitBet).amount : Nat) : Fr)
  | .betGuess i => boolToFr (c.bets.getD i defaultCircuitBet).guess
  | .betOutcome i => boolToFr (c.bets.getD i defaultCircuitBet).outcome
  | .wonVar i => boolToFr (c.bets.getD i defaultCircuitBet).won
  | .prodVar i =>
      boolToFr ((c.bets.getD i defaultCircuitBet).guess &&
        (c.bets.getD i defaultCircuitBet).outcome)
  | .deltaVar i =>
      ((u64ofI64 (wrapAdd (c.bets.getD i defaultCircuitBet).delta (2 ^ 32)) : Nat) : Fr)

/-- The spec's per-bet field delta `amount * (2*won - 1)`. -/
def specDelta (b : CircuitBet) : Fr :=
  if b.won then ((b.amount : Nat) : Fr) else -((b.amount : Nat) : Fr)

/-- The conservation property the spec requires the circuit to enforce. -/
def conservationHolds (c : AccountingCircuit) : Prop :=
  (∀ u < c.initial_balances.length,
      c.final_balances.getD u 0 - c.initial_balances.getD u 0 =
        ((c.bets.filter (fun b => b.user_id == u)).map specDelta).sum) ∧
    c.house_final - c.house_initial = -((c.bets.map specDelta).sum)

/-- Instantiation with one winning bet (user 0, amount 1000) whose public
balances are completely unchanged — conservation is violated. -/
def badCircuit : AccountingCircuit :=
  AccountingCircuit.new [⟨0, 1000, true, true⟩] 7 [1000] [1000] 500 500

/-- C1 (failing run): the generated constraint system is satisfiable on an
instantiation that violates both per-user and house conservation — the
conservation equalities are simply not among the constraints. -/
theorem c1_constraints_satisfiable_without_conservation :
    constraintsSatisfiable badCircuit ∧ ¬ conservationHolds badCircuit := by
  constructor
  · refine ⟨canonicalAssignment badCircuit,
      ⟨rfl, fun _ => rfl, fun _ => rfl, rfl, rfl⟩, ?_⟩
    decide
  · intro h
    exact absurd h.2 (by decide)

/-! ## Settlement coordinator and persistence
(`sequencer/src/main.rs` settlement processor task,
`sequencer/src/settlement_persistence.rs`)

The coordinator loop is modelled as a step function over events: a channel
receive (`recv`) or a timer tick (`tick`).  `create_batch` durably appends
a batch with a fresh monotone id and adds every item's bet id to the
processed set (`HashSet::insert`).  The deterministic model takes the
success path of each persistence call (I/O errors are out of scope of the
embedding).
-/

structure SettlementItem where
  bet_id : String
  player_address : String
  amount : Int
  payout : Int
  timestamp : Nat
  deriving DecidableEq, Repr

structure PersistState where
  batches : List (Nat × List SettlementItem)
  processed : List String
  last_batch_id : Nat
  deriving DecidableEq, Repr

/-- Rust `SettlementPersistence::is_bet_processed`. -/
def isBetProcessed (ps : PersistState) (id : String) : Bool :=
  decide (id ∈ ps.processed)

/-- The `processed_bet_ids.insert` loop of `create_batch` (set semantics). -/
def insertProcessed (processed : List String) : List SettlementItem → List String
  | [] => processed
  | it :: rest =>
      insertProcessed
        (if it.bet_id ∈ processed then processed else processed ++ [it.bet_id]) rest

/-- Rust `SettlementPersistence::create_batch`. -/
def createBatch (ps : PersistState) (items : List SettlementItem) :
    Nat × PersistState :=
  let bid := ps.last_batch_id + 1
  (bid,
   { batches := ps.batches ++ [(bid, items)]
     processed := insertProcessed ps.processed items
     last_batch_id := bid })

structure CoordState where
  buffer : List SettlementItem
  ps : PersistState
  deriving DecidableEq, Repr

def flushBatch (s : CoordState) : CoordState :=
  { buffer := [], ps := (createBatch s.ps s.buffer).2 }

inductive CoordEvent where
  | recv (item : SettlementItem)
  | tick
  deriving DecidableEq, Repr

/-- One iteration of the settlement processor's `select!`: on `recv`, drop
the item if its bet id is already processed, otherwise buffer it and flush
once the buffer reaches 50; on `tick`, flush a non-empty buffer. -/
def coordStep (s : CoordState) : CoordEvent → CoordState
  | .recv item =>
      if isBetProcessed s.ps item.bet_id then s
      else
        let buf := s.buffer ++ [item]
        if 50 ≤ buf.length then flushBatch { s with buffer := buf }
        else { s with buffer := buf }
  | .tick => if s.buffer.isEmpty then s else flushBatch s

def initialCoordState : CoordState := ⟨[], ⟨[], [], 0⟩⟩

def runCoord (evs : List CoordEvent) : CoordState :=
  evs.foldl coordStep initialCoordState

def batchIds (b : Nat × List SettlementItem) : List String :=
  b.2.map SettlementItem.bet_id

def disjointBatches (l : List (Nat × List SettlementItem)) : Prop :=
  l.Pairwise (fun b1 b2 => ∀ id, id ∈ batchIds b1 → id ∉ batchIds b2)

def coordInv (s : CoordState) : Prop :=
  disjointBatches s.ps.batches ∧
    (∀ b ∈ s.ps.batches, ∀ id ∈ batchIds b, id ∈ s.ps.processed) ∧
    (∀ it ∈ s.buffer, it.bet_id ∉ s.ps.processed)

theorem mem_insertProcessed_left {x : String} {processed : List String}
    (items : List SettlementItem) (h : x ∈ processed) :
    x ∈ insertProcessed processed items := by
  induction items generalizing processed with
  | nil => exact h
  | cons it rest ih =>
      rw [insertProcessed]
      apply ih
      split
      · exact h
      · exact List.mem_append_left _ h

theorem mem_insertProcessed_of_mem {it : SettlementItem}
    {items : List SettlementItem} (processed : List String) (h : it ∈ items) :
    it.bet_id ∈ insertProcessed processed items := by
  induction items generalizing processed with
  | nil => cases h
  | cons hd rest ih =>
      rw [insertProcessed]
      cases h with
      | head =>
          apply mem_insertProcessed_left
          split
          · assumption
          · exact List.mem_append_right _ (List.mem_singleton.mpr rfl)
      | tail _ hmem => exact ih _ hmem

theorem coordInv_flush {s : CoordState} (h : coordInv s) : coordInv (flushBatch s) := by
  obtain ⟨hdisj, hsub, hbuf⟩ := h
  refine ⟨?_, ?_, ?_⟩
  · show disjointBatches (s.ps.batches ++ [(s.ps.last_batch_id + 1, s.buffer)])
    refine List.pairwise_append.mpr ⟨hdisj, List.pairwise_singleton _ _, ?_⟩
    intro b1 hb1 b2 hb2 id hid1 hid2
    rcases List.mem_singleton.mp hb2 with rfl
    have hidp : id ∈ s.ps.processed := hsub b1 hb1 id hid1
    obtain ⟨it, hit, rfl⟩ := List.mem_map.mp hid2
    exact hbuf it hit hidp
  · intro b hb id hid
    rcases List.mem_append.mp hb with hb1 | hb2
    · exact mem_insertProcessed_left _ (hsub b hb1 id hid)
    · rcases List.mem_singleton.mp hb2 with rfl
      obtain ⟨it, hit, rfl⟩ := List.mem_map.mp hid
      exact mem_insertProcessed_of_mem _ hit
  · intro it hit
    cases hit

theorem coordInv_step {s : CoordState} (e : CoordEvent) (h : coordInv s) :
    coordInv (coordStep s e) := by
  cases e with
  | tick =>
      by_cases hb : s.buffer.isEmpty
      · simpa [coordStep, hb] using h
      · simpa [coordStep, hb] using coordInv_flush h
  | recv item =>
      by_cases hp : isBetProcessed s.ps item.bet_id
      · simpa [coordStep, hp] using h
      · have hpmem : item.bet_id ∉ s.ps.processed := by
          simpa [isBetProcessed] using hp
        have h' : coordInv { s with buffer := s.buffer ++ [item] } := by
          refine ⟨h.1, h.2.1, ?_⟩
          intro it hit
          rcases List.mem_append.mp hit with h1 | h2
          · exact h.2.2 it h1
          · rcases List.mem_singleton.mp h2 with rfl
            exact hpmem
        rw [coordStep, if_neg hp]
        simp only []
        split
        · exact coordInv_flush h'
        · exact h'

theorem coordInv_foldl (evs : List CoordEvent) :
    ∀ s, coordInv s → coordInv (evs.foldl coordStep s) := by
  induction evs with
  | nil => exact fun s h => h
  | cons e rest ih => exact fun s h => ih _ (coordInv_step e h)

def dupItem : SettlementItem := ⟨"x", "alice", 1000, 0, 0⟩

/-- C2 counterexample: two settlement items with the same bet id arriving
before the buffer is flushed both enter the same batch — the persisted
batch 1 contains bet id `"x"` twice. -/
theorem c2_duplicate_within_batch :
    ((runCoord [.recv dupItem, .recv dupItem, .tick]).ps.batches.map
        (fun b => b.2.map SettlementItem.bet_id)) = [["x", "x"]] ∧
      ((runCoord [.recv dupItem, .recv dupItem, .tick]).ps.batches.map
        (fun b => (b.2.map SettlementItem.bet_id).count "x")) = [2] := by
  constructor
  · rfl
  · rfl

/-- C2 amended: across batches the dedup does hold — in every state
reachable by the coordinator-plus-persistence step relation, the bet-id
sets of distinct persisted batches are pairwise disjoint, so a bet id
appears in at most one batch; only multiplicity inside a single batch
(duplicates arriving within one buffer window) is unprotected. -/
theorem c2_bet_ids_disjoint_across_batches (evs : List CoordEvent) :
    disjointBatches (runCoord evs).ps.batches := by
  have hinit : coordInv initialCoordState := by
    refine ⟨List.Pairwise.nil, ?_, ?_⟩
    · intro b hb
      cases hb
    · intro it hit
      cases hit
  exact (coordInv_foldl evs initialCoordState hinit).1

/-! ## Bet endpoint (`sequencer/src/main.rs::bet_handler`)

The coin-flip outcome (VRF or CSPRNG) is abstracted as the input bit
`coin`; the generated UUID bet id and `Utc::now()` are threaded in as
parameters.  The handler validates only `amount >= 1000`, responds
immediately, and the background task then saves the bet, attempts the
balance update (logging, not surfacing, its error) and enqueues a
settlement item unconditionally.  The result is the HTTP outcome, the
store after the background task, and the enqueued items.
-/

structure BetRequest where
  player_address : String
  amount : Nat
  guess : Bool
  deriving DecidableEq, Repr

structure BetResponse where
  bet_id : String
  player_address : String
  amount : Nat
  guess : Bool
  result : Bool
  won : Bool
  payout : Nat
  timestamp : Nat
  deriving DecidableEq, Repr

def betHandler (db : Database) (req : BetRequest) (coin : Bool) (betId : String)
    (now : Nat) : Except Nat BetResponse × Database × List SettlementItem :=
  if req.amount < 1000 then (.error 400, db, [])
  else
    let won := req.guess == coin
    let payout := if won then req.amount * 2 else 0
    let resp : BetResponse :=
      { bet_id := betId, player_address := req.player_address, amount := req.amount,
        guess := req.guess, result := coin, won := won, payout := payout,
        timestamp := now }
    let bet : BetRec :=
      { id := betId, player_address := req.player_address,
        amount := i64ofU64 req.amount, guess := req.guess, result := coin,
        won := won, payout := i64ofU64 payout, timestamp := now }
    let db1 := saveBet db bet
    let db2 := (updatePlayerBalanceAfterBet now db1 req.player_address
      (i64ofU64 req.amount) (i64ofU64 payout)).2
    let item : SettlementItem :=
      { bet_id := betId, player_address := req.player_address,
        amount := i64ofU64 req.amount, payout := i64ofU64 payout, timestamp := now }
    (.ok resp, db2, [item])

/-- The store after `Deposit(A, 500)`. -/
def db3 : Database := (deposit 0 emptyDb "A" 500).2

def req3 : BetRequest := ⟨"A", 1000, true⟩

def run3 : Except Nat BetResponse × Database × List SettlementItem :=
  betHandler db3 req3 false "b1" 1

/-- C3 (failing run): after `Deposit(A,500)`, `Bet{A,1000,heads}` is NOT
rejected with 400 — the handler answers `Ok` (HTTP 200), the bet record is
persisted, a settlement item is enqueued, and only the balance row stays
unchanged (the background `update_player_balance_after_bet` fails and is
merely logged). -/
theorem c3_insufficient_balance_bet_accepted :
    isOkE run3.1 = true ∧
      alookup run3.2.1.bets "b1" = some
        { id := "b1", player_address := "A", amount := 1000, guess := true,
          result := false, won := false, payout := 0, timestamp := 1 } ∧
      run3.2.2 = [(⟨"b1", "A", 1000, 0, 1⟩ : SettlementItem)] ∧
      alookup run3.2.1.balances "A" = alookup db3.balances "A" := by
  decide

/-! ## Ledger client wire format (`sequencer/src/solana.rs`)

`create_verify_and_settle_instruction` builds
`discriminator || u32_le(len) || serde_json(batch) || u32_le(len) || proof`.
The JSON text is pure ASCII, so its UTF-8 bytes are the character codes.
The verifier program (`programs/verifier`) declares the batch argument
with Anchor/borsh serialisation, i.e. the fixed little-endian layout; that
claimed layout is embedded separately as `claimedInstructionData` for
comparison.
-/

def u32le (n : Nat) : List Nat :=
  [n % 256, n / 256 % 256, n / 256 ^ 2 % 256, n / 256 ^ 3 % 256]

def u64le (n : Nat) : List Nat :=
  [n % 256, n / 256 % 256, n / 256 ^ 2 % 256, n / 256 ^ 3 % 256,
   n / 256 ^ 4 % 256, n / 256 ^ 5 % 256, n / 256 ^ 6 % 256, n / 256 ^ 7 % 256]

structure BetSettlement where
  bet_id : Nat
  user : List Nat
  bet_amount : Nat
  user_guess : Nat
  outcome : Nat
  payout : Nat
  deriving DecidableEq, Repr

structure BatchSettlementData where
  batch_id : Nat
  sequencer_nonce : Nat
  bets : List BetSettlement
  deriving DecidableEq, Repr

def byteListJson (l : List Nat) : String :=
  "[" ++ String.intercalate "," (l.map toString) ++ "]"

/-- Compact `serde_json` encoding of a `BetSettlement` (field order =
declaration order; the `Pubkey` serialises as an array of 32 bytes). -/
def betSettlementJson (b : BetSettlement) : String :=
  "\x7b\"bet_id\":" ++ toString b.bet_id ++
    ",\"user\":" ++ byteListJson b.user ++
    ",\"bet_amount\":" ++ toString b.bet_amount ++
    ",\"user_guess\":" ++ toString b.user_guess ++
    ",\"outcome\":" ++ toString b.outcome ++
    ",\"payout\":" ++ toString b.payout ++ "\x7d"

/-- Compact `serde_json::to_vec` output for `BatchSettlementData`. -/
def batchSettlementJson (b : BatchSettlementData) : String :=
  "\x7b\"batch_id\":" ++ toString b.batch_id ++
    ",\"sequencer_nonce\":" ++ toString b.sequencer_nonce ++
    ",\"bets\":[" ++ String.intercalate "," (b.bets.map betSettlementJson) ++
    "]\x7d"

def strBytes (s : String) : List Nat := s.toList.map Char.toNat

def jsonBatchBytes (b : BatchSettlementData) : List Nat :=
  strBytes (batchSettlementJson b)

def discriminator : List Nat := [0x12, 0x34, 0x56, 0x78, 0xab, 0xcd, 0xef, 0x90]

/-- The instruction data built by `create_verify_and_settle_instruction`. -/
def createVerifyAndSettleInstructionData (b : BatchSettlementData)
    (proof : List Nat) : List Nat :=
  discriminator ++ u32le (jsonBatchBytes b).length ++ jsonBatchBytes b ++
    u32le proof.length ++ proof

/-- The claimed (spec / verifier-program ABI) fixed record layout. -/
def betSettlementFixedBytes (b : BetSettlement) : List Nat :=
  u64le b.bet_id ++ b.user ++ u64le b.bet_amount ++ [b.user_guess] ++
    [b.outcome] ++ u64le b.payout

/-- The claimed (spec / verifier-program ABI) batch layout:
`batch_id:u64_le | sequencer_nonce:u64_le | n:u32_le | records`. -/
def batchFixedBytes (b : BatchSettlementData) : List Nat :=
  u64le b.batch_id ++ u64le b.sequencer_nonce ++ u32le b.bets.length ++
    (b.bets.map betSettlementFixedBytes).flatten

/-- The instruction data as the claim describes it. -/
def claimedInstructionData (b : BatchSettlementData) (proof : List Nat) :
    List Nat :=
  discriminator ++ u32le (batchFixedBytes b).length ++ batchFixedBytes b ++
    u32le proof.length ++ proof

def batch8 : BatchSettlementData := ⟨1, 1, []⟩

def proof8 : List Nat := [0]

/-- C8 (failing run): the batch bytes the sequencer actually emits are the
JSON text (44 bytes beginning with the byte `0x7b` of the opening brace),
not the fixed little-endian layout (20 bytes beginning `0x01`), so the
encoded instruction differs from the claimed layout already for the
simplest batch. -/
theorem c8_instruction_encoding_is_json :
    batchSettlementJson batch8 =
        "\x7b\"batch_id\":1,\"sequencer_nonce\":1,\"bets\":[]\x7d" ∧
      (jsonBatchBytes batch8).length = 44 ∧
      (jsonBatchBytes batch8).headD 0 = 0x7b ∧
      (batchFixedBytes batch8).length = 20 ∧
      (batchFixedBytes batch8).headD 0 = 0x01 ∧
      createVerifyAndSettleInstructionData batch8 proof8 ≠
        claimedInstructionData batch8 proof8 := by
  refine ⟨by decide, by decide, by decide, by decide, by decide, by decide⟩

/-! ## VRF proof verification (`sequencer/src/vrf/mod.rs`)

The ed25519 primitives (`PublicKey::from_bytes`, `Signature::try_from`,
`Verifier::verify`) are abstracted as parameters; `VRFProof::verify`
mirrors the source's match on the two parses, the signature check, and
the outcome-LSB comparison.
-/

structure VRFProof where
  message : List Nat
  signature : List Nat
  public_key : List Nat
  outcome : Bool
  deriving DecidableEq, Repr

def VRFProof.verify {PK SIG : Type} (parsePk : List Nat → Option PK)
    (parseSig : List Nat → Option SIG) (edVerify : PK → List Nat → SIG → Bool)
    (p : VRFProof) : Bool :=
  match parsePk p.public_key, parseSig p.signature with
  | some pk, some sig =>
      if edVerify pk p.message sig then
        ((p.signature.headD 0) % 2 == 0) == p.outcome
      else false
  | _, _ => false

/-- The ed25519 verification of raw bytes in the claim's sense: parsing either
component fails, or the parsed signature fails to verify. -/
def ed25519Verify {PK SIG : Type} (parsePk : List Nat → Option PK)
    (parseSig : List Nat → Option SIG) (edVerify : PK → List Nat → SIG → Bool)
    (pk msg sig : List Nat) : Bool :=
  match parsePk pk, parseSig sig with
  | some k, some s => edVerify k msg s
  | _, _ => false

/-- C9: `VRFProof::verify` returns `true` iff the ed25519 verification of
`(public_key, message, signature)` succeeds and the stored outcome equals
`signature[0] & 1 == 0`; any proof violating either condition yields
`false`. -/
theorem c9_vrf_verify_iff {PK SIG : Type} (parsePk : List Nat → Option PK)
    (parseSig : List Nat → Option SIG) (edVerify : PK → List Nat → SIG → Bool)
    (p : VRFProof) :
    VRFProof.verify parsePk parseSig edVerify p = true ↔
      (ed25519Verify parsePk parseSig edVerify p.public_key p.message
          p.signature = true ∧
        p.outcome = ((p.signature.headD 0) % 2 == 0)) := by
  unfold VRFProof.verify ed25519Verify
  cases hpk : parsePk p.public_key with
  | none => simp
  | some pk =>
      cases hsig : parseSig p.signature with
      | none => simp
      | some sig =>
          by_cases hv : edVerify pk p.message sig
          · simp only [hv, if_true, beq_iff_eq, eq_self_iff_true, true_and]
            exact eq_comm
          · have hv2 : edVerify pk p.message sig = false := by
              simpa using hv
            simp [hv2]

end CasinoRollup
